import Mathlib

/-!
Verification of the gosling repository against its design specification.

The Python sources are shallowly embedded below.  Python `str` values are
modelled as Lean `String` (a sequence of code points, `String.data`),
Python integers as `Int`, Python dicts as insertion-ordered association
lists whose insert overwrites the value in place (as Python dicts do),
Python exceptions as `Except String`, and Python `None`-able values as
`Option`.  Python f-strings are modelled as string concatenation.
-/

set_option maxRecDepth 4000

/-- Insertion-ordered association-list read, modelling Python `dict.get`:
the value stored for the key, or `none` when the key is absent. -/
def alist_get {κ α : Type} [DecidableEq κ] : List (κ × α) → κ → Option α
  | [], _ => none
  | (k', v) :: rest, k => if k' = k then some v else alist_get rest k

/-- Insertion-ordered association-list write, modelling Python
`d[k] = v`: overwrites in place when the key exists (keeping its
position, as Python dicts do), otherwise appends at the end. -/
def alist_put {κ α : Type} [DecidableEq κ] : List (κ × α) → κ → α → List (κ × α)
  | [], k, v => [(k, v)]
  | (k', v') :: rest, k, v =>
    if k' = k then (k', v) :: rest else (k', v') :: alist_put rest k v

/-- Python string slicing splice `s[:pos] + ins + s[pos:]` on code points. -/
def pyInsert (s : String) (pos : Nat) (ins : String) : String :=
  String.mk (s.data.take pos ++ ins.data ++ s.data.drop pos)

/-- Value of a non-empty all-digit character run, for modelling Python
`int(...)` applied to a decimal string. -/
def digitsVal? (cs : List Char) : Option Nat :=
  if cs.isEmpty then none
  else if cs.all Char.isDigit then
    some (cs.foldl (fun a c => 10 * a + (c.toNat - 48)) 0)
  else none

/-- Strip leading and trailing whitespace, as Python `int(...)` does
before parsing a string. -/
def pyTrim (cs : List Char) : List Char :=
  ((cs.dropWhile Char.isWhitespace).reverse.dropWhile Char.isWhitespace).reverse

/-- Python `int(s)` on a decimal string: optional sign, then digits;
`none` models the `ValueError` raised on any other input (underscore
separators and non-ASCII digits are not modelled). -/
def pyInt? (s : String) : Option Int :=
  match pyTrim s.data with
  | '-' :: rest => (digitsVal? rest).map (fun n => -(n : Int))
  | '+' :: rest => (digitsVal? rest).map (fun n => (n : Int))
  | cs => (digitsVal? cs).map (fun n => (n : Int))

/-- Python `s.split('.')[0]`: the longest prefix before the first dot. -/
def splitDotHead (s : String) : String :=
  String.mk (s.data.takeWhile (fun c => c != '.'))

/-- Python `s.startswith(p)`, tested on code points. -/
def pyStartsWith (s p : String) : Bool :=
  p.data.isPrefixOf s.data

/-- Python `','.join(parts)`. -/
def joinComma : List String → String
  | [] => ""
  | [x] => x
  | x :: rest => x ++ "," ++ joinComma rest

/-! ### honk.py — citation formatting (`format_normalized_response`) -/

/-- One normalized reference `{'name': ..., 'url': ...}`
(honk.py, `normalize_pinecone_citations`). -/
structure Reference where
  name : String
  url : String
deriving DecidableEq

/-- One normalized citation `{'position': ..., 'references': [...]}`. -/
structure Citation where
  position : Nat
  references : List Reference
deriving DecidableEq

/-- A normalized answer `{'message': ..., 'citations': [...]}`. -/
structure NormalizedResponse where
  message : String
  citations : List Citation
deriving DecidableEq

/-- Inner loop of the first pass of `format_normalized_response`
(honk.py lines 179-185): walk one citation's references and give each
not-yet-seen URL the next reference number.  The state is the
`reference_numbers` association list plus the `current_ref_num` counter. -/
def addRefUrls : List (String × Nat) × Nat → List Reference → List (String × Nat) × Nat
  | st, [] => st
  | (nums, ctr), r :: rest =>
    if (alist_get nums r.url).isSome then addRefUrls (nums, ctr) rest
    else addRefUrls (nums ++ [(r.url, ctr)], ctr + 1) rest

/-- Outer loop of the first pass of `format_normalized_response`:
citations are scanned in the order they appear in the raw response list. -/
def assignNums : List (String × Nat) × Nat → List Citation → List (String × Nat) × Nat
  | st, [] => st
  | st, c :: rest => assignNums (addRefUrls st c.references) rest

/-- The `reference_numbers` mapping built by `format_normalized_response`
(honk.py lines 173-185): URL to its 1-based reference number, in order of
first appearance over the raw citation list. -/
def reference_numbers (cits : List Citation) : List (String × Nat) :=
  (assignNums ([], 1) cits).1

/-- Collect the URLs of one citation's references, keeping only first
appearances (same scan as `addRefUrls`, without the numbering state). -/
def addUrls : List String → List Reference → List String
  | acc, [] => acc
  | acc, r :: rest =>
    if r.url ∈ acc then addUrls acc rest
    else addUrls (acc ++ [r.url]) rest

/-- All distinct reference URLs in order of first appearance over the raw
citation list. -/
def collectUrls : List String → List Citation → List String
  | acc, [] => acc
  | acc, c :: rest => collectUrls (addUrls acc c.references) rest

/-- Distinct reference URLs of a normalized answer, first-appearance
order, scanning the citation list as given. -/
def first_appearance_urls (cits : List Citation) : List String :=
  collectUrls [] cits

/-- Pair each list element with consecutive numbers starting at `n`. -/
def numbered : Nat → List String → List (String × Nat)
  | _, [] => []
  | n, u :: us => (u, n) :: numbered (n + 1) us

/-- Citation insertion-sort step, ascending by `position`, used only to
state what the spec asks for. -/
def insertCitByPos (c : Citation) : List Citation → List Citation
  | [] => [c]
  | d :: rest =>
    if c.position < d.position then c :: d :: rest else d :: insertCitByPos c rest

/-- Citations sorted ascending by `position`. -/
def sortCitsByPos (cits : List Citation) : List Citation :=
  cits.foldr insertCitByPos []

/-- Follows the spec's words, for comparison with `reference_numbers`:
"assign each distinct reference a 1-based number in order of first
appearance (scanning citations by ascending position, then by reference
order within a citation)". -/
def reference_numbers_spec (cits : List Citation) : List (String × Nat) :=
  reference_numbers (sortCitsByPos cits)

/-- Per-URL entry of the `citations_by_position` second pass (honk.py
lines 188-195): record the URL under its citation's position, keeping one
copy per position (the Python value is a set). -/
def addPosUrl : List (Nat × List String) → Nat → String → List (Nat × List String)
  | [], pos, url => [(pos, [url])]
  | (p, us) :: rest, pos, url =>
    if p = pos then (p, if us.contains url then us else us ++ [url]) :: rest
    else (p, us) :: addPosUrl rest pos url

/-- Walk one citation's references for the `citations_by_position` pass. -/
def addCitPos : List (Nat × List String) → Nat → List Reference → List (Nat × List String)
  | d, _, [] => d
  | d, pos, r :: rest => addCitPos (addPosUrl d pos r.url) pos rest

/-- The `citations_by_position` mapping of `format_normalized_response`:
position to the distinct URLs cited there. -/
def citations_by_position : List (Nat × List String) → List Citation → List (Nat × List String)
  | d, [] => d
  | d, c :: rest => citations_by_position (addCitPos d c.position c.references) rest

/-- Insertion step for sorting positions in descending order
(`sorted(citations_by_position.keys(), reverse=True)`). -/
def insertDesc (p : Nat) : List Nat → List Nat
  | [] => [p]
  | q :: rest => if q ≤ p then p :: q :: rest else q :: insertDesc p rest

/-- Positions sorted descending, as `format_normalized_response` iterates
them (highest offset first). -/
def sortDesc (l : List Nat) : List Nat :=
  l.foldr insertDesc []

/-- Insertion step for sorting one position's URLs by their assigned
reference number (`sorted(refs, key=lambda x: reference_numbers[x])`). -/
def insertByNum (nums : List (String × Nat)) (u : String) : List String → List String
  | [] => [u]
  | v :: rest =>
    if (alist_get nums u).getD 0 ≤ (alist_get nums v).getD 0 then u :: v :: rest
    else v :: insertByNum nums u rest

/-- URLs sorted ascending by assigned reference number. -/
def sortByNum (nums : List (String × Nat)) (l : List String) : List String :=
  l.foldr (insertByNum nums) []

/-- One inline citation number as rendered by
`format_normalized_response` (honk.py lines 202-208): the number is
hyperlinked when the reference is a URL. -/
def refMarkerToken (url : String) (num : Nat) : String :=
  if (!(url == "")) && pyStartsWith url "http" then
    "<" ++ url ++ "|" ++ toString num ++ ">"
  else toString num

/-- The bracketed marker inserted at one position: a comma-joined list of
the reference numbers cited there, sorted by number. -/
def markerAt (nums : List (String × Nat)) (refs : List String) : String :=
  "[" ++ joinComma ((sortByNum nums refs).map
    (fun u => refMarkerToken u ((alist_get nums u).getD 0))) ++ "]"

/-- The marker-insertion loop of `format_normalized_response` (honk.py
lines 197-211): for each position in the given (descending) order, splice
the marker into the message at that offset. -/
def insertMarkers (nums : List (String × Nat)) (byPos : List (Nat × List String)) :
    List Nat → String → String
  | [], message => message
  | pos :: rest, message =>
    insertMarkers nums byPos rest
      (pyInsert message pos (markerAt nums ((alist_get byPos pos).getD [])))

/-- One line of the references block:
`f"{ref_num}. {formatted_ref}\n"`, the reference hyperlinked when it is a
URL. -/
def refLine (url : String) (num : Nat) : String :=
  toString num ++ ". " ++
    (if (!(url == "")) && pyStartsWith url "http" then "<" ++ url ++ "|" ++ url ++ ">" else url)
    ++ "\n"

/-- The references block prepended by `format_normalized_response`
(honk.py lines 214-220): every distinct reference listed once, ordered by
its assigned number. -/
def referencesBlock (nums : List (String × Nat)) : String :=
  (nums.map Prod.fst).foldl (fun acc u => acc ++ refLine u ((alist_get nums u).getD 0))
    "References:\n"

/-- honk.py `format_normalized_response` (lines 155-222): returns the
message unchanged when there are no citations; otherwise assigns
reference numbers, inserts bracketed markers in descending position
order, and prepends the references block. -/
def format_normalized_response (resp : NormalizedResponse) : String :=
  if resp.citations.isEmpty then resp.message
  else
    let nums := reference_numbers resp.citations
    let byPos := citations_by_position [] resp.citations
    let positions := sortDesc (byPos.map Prod.fst)
    let message := insertMarkers nums byPos positions resp.message
    if (nums.map Prod.fst).isEmpty then message
    else referencesBlock nums ++ "\n" ++ message

/-! ### feed.py — `dupsert_files_pinecone` (reconciliation and upload) -/

/-- The metadata dict of a file stored in the Pinecone assistant
(feed.py `upload_metadata`); each field may be absent. -/
structure PineMetadata where
  source : Option String
  last_updated : Option String
  content_hash : Option String
deriving DecidableEq

/-- One remote file as returned by `assistant.list_files()`:
a name and an optional metadata dict (`metadata = none` models a file
whose `metadata` key is missing; non-dict metadata values are not
modelled). -/
structure PineFile where
  name : String
  metadata : Option PineMetadata
deriving DecidableEq

/-- A local file record (feed.py `FileMetadata`; the `file_path` field
plays no role in the reconciliation decisions and is omitted). -/
structure FileMetadata where
  source : String
  file_name : String
  last_updated : String
  url : String
  content_hash : String
deriving DecidableEq

/-- feed.py line 114: `existing_files = {f.get("name"): f for f in
assistant.list_files()}` — a dict keyed by file name, later duplicates
overwriting earlier values. -/
def pyDict (fs : List PineFile) : List (String × PineFile) :=
  fs.foldl (fun d f => alist_put d f.name f) []

/-- feed.py line 115: the remote files whose metadata is a dict carrying
`source == source`. -/
def existing_valid_files (existing_dict : List (String × PineFile)) (source : String) :
    List PineFile :=
  (existing_dict.map Prod.snd).filter (fun f =>
    match f.metadata with
    | some md => decide (md.source = some source)
    | none => false)

/-- feed.py lines 120-123: every valid remote entry whose name is not
among the local manifest's file names. -/
def files_to_delete (valid : List PineFile) (current_file_names : List String) :
    List PineFile :=
  valid.filter (fun f => !(current_file_names.contains f.name))

/-- feed.py line 139: `is_newer = (new_ts > existing_ts and precise) or
(not precise and new_ts > existing_ts and new_ts - existing_ts <
24*60*60)`. -/
def is_newer (precise : Bool) (new_ts existing_ts : Int) : Bool :=
  (decide (new_ts > existing_ts) && precise) ||
    (!precise && decide (new_ts > existing_ts) && decide (new_ts - existing_ts < 24 * 60 * 60))

/-- feed.py lines 128-150, decision for one local record: `.ok true` when
it must be uploaded, `.ok false` when it is skipped, `.error` when a
`last_updated` string fails integer parsing (Python would raise).
A remote entry without metadata or with a falsy `last_updated` is treated
as never-verified and re-uploaded; a newer record is skipped only when
the remote `content_hash` equals the local one. -/
def upsertDecision (existing_dict : List (String × PineFile)) (nf : FileMetadata)
    (precise : Bool) : Except String Bool :=
  match alist_get existing_dict nf.file_name with
  | none => .ok true
  | some ef =>
    match ef.metadata with
    | none => .ok true
    | some md =>
      match md.last_updated with
      | none => .ok true
      | some lu =>
        if lu = "" then .ok true
        else
          match pyInt? (splitDotHead lu) with
          | none => .error ("invalid literal for int: " ++ lu)
          | some existing_ts =>
            match pyInt? (splitDotHead nf.last_updated) with
            | none => .error ("invalid literal for int: " ++ nf.last_updated)
            | some new_ts =>
              if is_newer precise new_ts existing_ts then
                match md.content_hash with
                | none => .ok true
                | some eh =>
                  if eh = "" then .ok true
                  else if eh = nf.content_hash then .ok false
                  else .ok true
              else .ok false

/-- feed.py lines 126-150, the upsert loop: local records are examined in
manifest order, keeping those whose decision is upload; a parse error
aborts the whole pass (the Python exception propagates). -/
def files_to_upsert (existing_dict : List (String × PineFile)) (precise : Bool) :
    List FileMetadata → Except String (List FileMetadata)
  | [] => .ok []
  | f :: rest =>
    match upsertDecision existing_dict f precise with
    | .error e => .error e
    | .ok b =>
      match files_to_upsert existing_dict precise rest with
      | .error e => .error e
      | .ok tl => .ok (if b then f :: tl else tl)

/-- The decision part of feed.py `dupsert_files_pinecone` (lines
113-166): the stale remote entries to delete and the local records to
upload, given the remote listing, the local manifest and the source tag. -/
def dupsert_files_pinecone (remote : List PineFile) (files : List FileMetadata)
    (source : String) (precise : Bool) :
    Except String (List PineFile × List FileMetadata) :=
  let existing_dict := pyDict remote
  let valid := existing_valid_files existing_dict source
  let current_file_names := files.map (fun f => f.file_name)
  let to_delete := files_to_delete valid current_file_names
  match files_to_upsert existing_dict precise files with
  | .error e => .error e
  | .ok to_upsert => .ok (to_delete, to_upsert)

/-- One remote-store mutation attempted by `dupsert_files_pinecone`. -/
inductive SyncAction
  | deleteFile (name : String)
  | uploadFile (name : String)
deriving DecidableEq

/-- feed.py lines 164-225, execution: when both decision lists are empty
the function returns before any confirmation or write (`"No changes
needed!"`); otherwise each delete is attempted once and each upload at
least once (`auto_confirm = true`).  The retry structure of one upload is
modelled separately by `upload_with_retry`. -/
def dupsert_mutations (to_delete : List PineFile) (to_upsert : List FileMetadata) :
    List SyncAction :=
  if to_delete.isEmpty && to_upsert.isEmpty then []
  else to_delete.map (fun f => .deleteFile f.name) ++
    to_upsert.map (fun f => .uploadFile f.file_name)

/-- Decisions plus execution of `dupsert_files_pinecone`: the mutations
the pass performs against the remote store. -/
def dupsert_run (remote : List PineFile) (files : List FileMetadata)
    (source : String) (precise : Bool) : Except String (List SyncAction) :=
  match dupsert_files_pinecone remote files source precise with
  | .error e => .error e
  | .ok (td, tu) => .ok (dupsert_mutations td tu)

/-- feed.py lines 193-225, the retry loop of one upload:
`for attempt in range(max_retries)` with `fuel` counting the remaining
iterations.  `f attempt` is the outcome of the upload plus its
verification read at that attempt (`.error` models any exception,
including the `ValueError` raised when the described file lacks
`last_updated` metadata).  On failure with `attempt < max_retries - 1`
the loop sleeps `retry_delay * 2 ** attempt` and retries; on the last
attempt it re-raises.  Returns the list of backoff sleeps in order,
and the final outcome. -/
def uploadGo (f : Nat → Except String Unit) (retryDelay maxRetries : Nat) :
    Nat → Nat → List Nat × Except String Unit
  | _, 0 => ([], .ok ())
  | attempt, fuel + 1 =>
    match f attempt with
    | .ok _ => ([], .ok ())
    | .error err =>
      if attempt < maxRetries - 1 then
        match uploadGo f retryDelay maxRetries (attempt + 1) fuel with
        | (ds, r) => (retryDelay * 2 ^ attempt :: ds, r)
      else ([], .error err)

/-- One upload of feed.py `dupsert_files_pinecone` with its bounded
retry: attempts run from index `0` with `maxRetries` loop iterations. -/
def upload_with_retry (f : Nat → Except String Unit) (maxRetries retryDelay : Nat) :
    List Nat × Except String Unit :=
  uploadGo f retryDelay maxRetries 0 maxRetries

/-! ### slackbot.py — reactions, context, dedup gate, orchestrator -/

/-- slackbot.py lines 20-24 as Python evaluates them: the adjacent string
literals `'thumbs_up' 'heart'` concatenate to the single element
`'thumbs_upheart'`, and the separate `'heart'` element appears once in
the resulting set. -/
def POSITIVE_REACTIONS : List String :=
  ["+1", "thumbsup", "white_check_mark", "heavy_check_mark", "yes",
   "good", "verified", "raised_hands", "heart", "thumbs_upheart", "heavy_plus_sign"]

/-- slackbot.py lines 26-29. -/
def NEGATIVE_REACTIONS : List String :=
  ["-1", "thumbsdown", "x", "no", "negative", "wrong", "false", "thumbs_down"]

/-- One Slack reaction entry `{'name': ..., 'count': ...}`. -/
structure Reaction where
  name : String
  count : Nat
deriving DecidableEq

/-- slackbot.py lines 102-110 (`get_conversation_context`): the
reputation score of one message, positive reaction counts added and
negative counts subtracted, any other name ignored. -/
def reactionScore (reactions : List Reaction) : Int :=
  reactions.foldl (fun score r =>
    if r.name ∈ POSITIVE_REACTIONS then score + r.count
    else if r.name ∈ NEGATIVE_REACTIONS then score - r.count
    else score) 0

/-- slackbot.py lines 122-125: the context line built for one thread
message — `f"{msg['user']}: {msg['text']}"` when the score is
non-negative, the redaction placeholder otherwise. -/
def context_line (user text : String) (reactions : List Reaction) : String :=
  if 0 ≤ reactionScore reactions then user ++ ": " ++ text
  else "[Response marked as incorrect]"

/-- The dedup key of one Slack event (spec §3: `(channel_id, event_ts)`). -/
structure DedupKey where
  channel_id : String
  event_ts : String
deriving DecidableEq

/-- Modelled from the spec (§6, "Dedup/idempotency table: keyed by
`(channel_id, event_ts)`, value carries an expiry; get/put only"): the
DynamoDB event table read used by `is_duplicate_request`. -/
def get_item (t : List (DedupKey × Nat)) (k : DedupKey) : Option Nat :=
  alist_get t k

/-- Modelled from the spec (§6): the DynamoDB event table write used by
`mark_request_started`; a put for an existing key overwrites it. -/
def put_item (t : List (DedupKey × Nat)) (k : DedupKey) (ttlExpiry : Nat) :
    List (DedupKey × Nat) :=
  alist_put t k ttlExpiry

/-- slackbot.py lines 40-49 `is_duplicate_request`: true when the table
read finds an item for the key; a failed read (`.error`) is caught and
reported as false. -/
def is_duplicate_request (tableRead : Except String (List (DedupKey × Nat)))
    (k : DedupKey) : Bool :=
  match tableRead with
  | .ok t => (get_item t k).isSome
  | .error _ => false

/-- slackbot.py lines 51-64 `mark_request_started`: puts the key with a
one-hour expiry (`now + 3600` seconds); a failed put (`.error`) is caught
and logged, leaving the table unchanged — the function never raises. -/
def mark_request_started (t : List (DedupKey × Nat)) (k : DedupKey) (now : Nat)
    (putOutcome : Except String Unit) : List (DedupKey × Nat) :=
  match putOutcome with
  | .ok _ => put_item t k (now + 3600)
  | .error _ => t

/-- slackbot.py lines 66-83 `get_provider_response`, with the backend
call and the citation formatting as oracles: `query` is the outcome of
`honk.get_response` (its answer of type `α`), `fmt` the outcome of
`honk.format_response_with_citations`, and `pyStr` is Python
`response if isinstance(response, str) else str(response)`. -/
def get_provider_response {α : Type} (query : Except String α)
    (fmt : α → Except String String) (pyStr : α → String) : String :=
  match query with
  | .error e => "Sorry, I encountered an error: " ++ e
  | .ok response =>
    match fmt response with
    | .ok resp => resp
    | .error _ => pyStr response

/-- A remote inventory identical to a local manifest: one entry per local
record, same name, and metadata carrying the given source tag with the
record's `last_updated` and `content_hash` (spec §8, "local manifests
identical to a remote inventory"). -/
def mirrorRemote (source : String) (files : List FileMetadata) : List PineFile :=
  files.map (fun f =>
    { name := f.file_name,
      metadata := some
        { source := some source,
          last_updated := some f.last_updated,
          content_hash := some f.content_hash } })

/-- Total count of the reactions of a message whose names are in the
positive set (spec §3, MessageReputation). -/
def positive_total (reactions : List Reaction) : Int :=
  ((reactions.filter (fun r => decide (r.name ∈ POSITIVE_REACTIONS))).map
    (fun r => (r.count : Int))).sum

/-- Total count of the reactions of a message whose names are in the
negative set (spec §3, MessageReputation). -/
def negative_total (reactions : List Reaction) : Int :=
  ((reactions.filter (fun r => decide (r.name ∈ NEGATIVE_REACTIONS))).map
    (fun r => (r.count : Int))).sum

/-! ### Helper lemmas -/

theorem alist_get_put_self {κ α : Type} [DecidableEq κ] (t : List (κ × α)) (k : κ) (v : α) :
    alist_get (alist_put t k v) k = some v := by
  induction t with
  | nil => simp [alist_put, alist_get]
  | cons p rest ih =>
    by_cases h : p.1 = k
    · simp [alist_put, alist_get, h]
    · simp [alist_put, alist_get, h, ih]

theorem alist_get_put_ne {κ α : Type} [DecidableEq κ] (t : List (κ × α)) (k k' : κ) (v : α)
    (h : k' ≠ k) : alist_get (alist_put t k v) k' = alist_get t k' := by
  induction t with
  | nil => simp [alist_put, alist_get, Ne.symm h]
  | cons p rest ih =>
    by_cases hk : p.1 = k
    · have hne : p.1 ≠ k' := by rw [hk]; exact Ne.symm h
      cases p with
      | mk pk pv => simp_all [alist_put, alist_get]
    · cases p with
      | mk pk pv => simp_all [alist_put, alist_get]

theorem reaction_pos_not_neg (s : String) (h : s ∈ POSITIVE_REACTIONS) :
    s ∉ NEGATIVE_REACTIONS := by
  fin_cases h <;> decide

theorem reactionScore_foldl (rs : List Reaction) :
    ∀ a : Int,
      rs.foldl (fun score r =>
        if r.name ∈ POSITIVE_REACTIONS then score + (r.count : Int)
        else if r.name ∈ NEGATIVE_REACTIONS then score - (r.count : Int)
        else score) a = a + positive_total rs - negative_total rs := by
  induction rs with
  | nil => intro a; simp [positive_total, negative_total]
  | cons r rest ih =>
    intro a
    by_cases hp : r.name ∈ POSITIVE_REACTIONS
    · have hn : r.name ∉ NEGATIVE_REACTIONS := reaction_pos_not_neg r.name hp
      simp only [List.foldl_cons, if_pos hp, ih]
      simp [positive_total, negative_total, hp, hn]
      ring
    · by_cases hn : r.name ∈ NEGATIVE_REACTIONS
      · simp only [List.foldl_cons, if_neg hp, if_pos hn, ih]
        simp [positive_total, negative_total, hp, hn]
        ring
      · simp only [List.foldl_cons, if_neg hp, if_neg hn, ih]
        simp [positive_total, negative_total, hp, hn]

/-! ### Claim theorems -/

/-- Claim C6: for every thread message, the reputation score equals the
sum of reaction counts whose names are in the positive set minus the sum
of counts whose names are in the negative set (unrecognized names
contribute 0); the reactions `{"+1": 2, "-1": 1}` score `+1`; and the
context line is `"{user}: {text}"` when the score is non-negative and
`"[Response marked as incorrect]"` when it is negative. -/
theorem c6_reputation_scoring :
    (∀ rs : List Reaction, reactionScore rs = positive_total rs - negative_total rs) ∧
    reactionScore [⟨"+1", 2⟩, ⟨"-1", 1⟩] = 1 ∧
    (∀ (user text : String) (rs : List Reaction), 0 ≤ reactionScore rs →
      context_line user text rs = user ++ ": " ++ text) ∧
    (∀ (user text : String) (rs : List Reaction), reactionScore rs < 0 →
      context_line user text rs = "[Response marked as incorrect]") := by
  refine ⟨fun rs => ?_, by decide, fun user text rs h => ?_, fun user text rs h => ?_⟩
  · have := reactionScore_foldl rs 0
    simpa [reactionScore] using this
  · simp [context_line, h]
  · simp [context_line, not_le.mpr h]

/-- Witness for C6 at concrete inputs. -/
theorem c6_reputation_scoring_witness :
    context_line "alice" "hi" [] = "alice" ++ ": " ++ "hi" ∧
    context_line "bob" "no" [⟨"-1", 1⟩] = "[Response marked as incorrect]" :=
  ⟨c6_reputation_scoring.2.2.1 "alice" "hi" [] (by decide),
   c6_reputation_scoring.2.2.2 "bob" "no" [⟨"-1", 1⟩] (by decide)⟩

/-- Claim C7: after a successful `mark` of a dedup key, `check` returns
true for that key; for a different, not previously marked key, `check` is
unaffected by the mark and returns false on a table where it was never
marked. -/
theorem c7_dedup_mark_then_check (t : List (DedupKey × Nat)) (k k' : DedupKey) (now : Nat)
    (h : k' ≠ k) :
    is_duplicate_request (.ok (mark_request_started t k now (.ok ()))) k = true ∧
    is_duplicate_request (.ok (mark_request_started t k now (.ok ()))) k' =
      is_duplicate_request (.ok t) k' ∧
    is_duplicate_request (.ok []) k' = false := by
  refine ⟨?_, ?_, rfl⟩
  · simp [is_duplicate_request, mark_request_started, get_item, put_item, alist_get_put_self]
  · simp [is_duplicate_request, mark_request_started, get_item, put_item,
      alist_get_put_ne t k k' _ h]

/-- Witness for C7 at concrete keys. -/
theorem c7_dedup_mark_then_check_witness :
    is_duplicate_request
      (.ok (mark_request_started [] ⟨"C1", "1.0"⟩ 0 (.ok ()))) ⟨"C1", "1.0"⟩ = true ∧
    is_duplicate_request
      (.ok (mark_request_started [] ⟨"C1", "1.0"⟩ 0 (.ok ()))) ⟨"C2", "2.0"⟩ =
      is_duplicate_request (.ok []) ⟨"C2", "2.0"⟩ ∧
    is_duplicate_request (.ok []) ⟨"C2", "2.0"⟩ = false :=
  c7_dedup_mark_then_check [] ⟨"C1", "1.0"⟩ ⟨"C2", "2.0"⟩ 0 (by decide)

/-- Claim C8: when the backend query raises, `get_provider_response`
returns a plain-text apology instead of raising; when the query succeeds
but citation formatting raises, it returns the raw (stringified) answer
instead of propagating the failure. -/
theorem c8_orchestrator_fallbacks {α : Type} (query : Except String α)
    (fmt : α → Except String String) (pyStr : α → String) :
    (∀ e, query = .error e →
      get_provider_response query fmt pyStr = "Sorry, I encountered an error: " ++ e) ∧
    (∀ r msg, query = .ok r → fmt r = .error msg →
      get_provider_response query fmt pyStr = pyStr r) := by
  constructor
  · intro e he
    subst he
    rfl
  · intro r msg hq hf
    subst hq
    simp [get_provider_response, hf]

/-- Witness for C8 at concrete outcomes. -/
theorem c8_orchestrator_fallbacks_witness :
    get_provider_response (α := String) (.error "boom") (fun s => .ok s) (fun s => s) =
      "Sorry, I encountered an error: " ++ "boom" ∧
    get_provider_response (α := String) (.ok "raw answer") (fun _ => .error "KeyError")
      (fun s => s) = "raw answer" :=
  ⟨(c8_orchestrator_fallbacks (.error "boom") (fun s => .ok s) (fun s => s)).1 "boom" rfl,
   (c8_orchestrator_fallbacks (.ok "raw answer") (fun _ => .error "KeyError")
      (fun s => s)).2 "raw answer" "KeyError" rfl rfl⟩

/-- Claim C9: the positive reaction set does not contain `'thumbs_up'`
(the adjacent string literals concatenate to the single element
`'thumbs_upheart'`), so a `'thumbs_up'` reaction contributes nothing to
the reputation score while a `'thumbs_upheart'` reaction counts as
positive. -/
theorem c9_thumbs_up_concatenation :
    "thumbs_up" ∉ POSITIVE_REACTIONS ∧
    "thumbs_upheart" ∈ POSITIVE_REACTIONS ∧
    (∀ (c : Nat) (rs : List Reaction),
      reactionScore (⟨"thumbs_up", c⟩ :: rs) = reactionScore rs) ∧
    (∀ c : Nat, reactionScore [⟨"thumbs_upheart", c⟩] = c) := by
  refine ⟨by decide, by decide, fun c rs => ?_, fun c => ?_⟩
  · simp only [reactionScore, List.foldl_cons]
    rw [if_neg (by decide), if_neg (by decide)]
  · simp only [reactionScore, List.foldl_cons, List.foldl_nil]
    rw [if_pos (by decide)]
    omega

/-- Claim C10: the duplicate check fails open — a failed read of the
idempotency table makes `is_duplicate_request` return false, and a failed
put inside `mark_request_started` is swallowed, leaving the table
unchanged and raising nothing. -/
theorem c10_dedup_fails_open :
    (∀ (k : DedupKey) (err : String),
      is_duplicate_request (.error err) k = false) ∧
    (∀ (t : List (DedupKey × Nat)) (k : DedupKey) (now : Nat) (err : String),
      mark_request_started t k now (.error err) = t) :=
  ⟨fun _ _ => rfl, fun _ _ _ _ => rfl⟩

/-- Claim C2 (amended): with `max_retries = 5` and `retry_delay = 1` and
every attempt failing, the backoff sleeps are `[1, 2, 4, 8]` — the sleep
`retry_delay * 2 ** attempt` is inserted after attempt `attempt` fails,
so the delay before attempt index 3 is `4` and the delay before attempt
index 4 is `8` — and after all 5 attempts fail the loop re-raises the
last error rather than returning silently. -/
theorem c2_retry_delays_and_reraise (f : Nat → Except String Unit) (e : Nat → String)
    (h : ∀ i, i < 5 → f i = .error (e i)) :
    upload_with_retry f 5 1 = ([1, 2, 4, 8], .error (e 4)) := by
  simp [upload_with_retry, uploadGo, h 0 (by omega), h 1 (by omega), h 2 (by omega),
    h 3 (by omega), h 4 (by omega)]

/-- Witness for C2 (amended) with every attempt failing. -/
theorem c2_retry_delays_and_reraise_witness :
    upload_with_retry (fun i => Except.error (toString i)) 5 1 =
      ([1, 2, 4, 8], .error (toString 4)) :=
  c2_retry_delays_and_reraise (fun i => Except.error (toString i)) (fun i => toString i)
    (fun _ _ => rfl)

/-- Counterexample to C2 as stated: with `max_retries = 5`,
`retry_delay = 1` and every attempt failing, the delay inserted before
attempt index 3 (the third backoff sleep) is `4`, not `8`. -/
theorem c2_delay_before_attempt_three :
    (upload_with_retry (fun i => Except.error (toString i)) 5 1).1[2]? = some 4 ∧
    (upload_with_retry (fun i => Except.error (toString i)) 5 1).1[2]? ≠ some 8 :=
  ⟨rfl, by decide⟩

/-- Claim C3: with `precise = false`, a local record whose name has a
remote entry with a `last_updated` value counts as newer iff its integer
timestamp exceeds the remote one and the gap is strictly under 24 hours;
a record newer by 23 hours is treated as newer, one newer by 25 hours is
treated as not-newer and is therefore skipped by the upsert decision. -/
theorem c3_imprecise_24h_boundary :
    (∀ new_ts existing_ts : Int,
      is_newer false new_ts existing_ts = true ↔
        existing_ts < new_ts ∧ new_ts - existing_ts < 24 * 60 * 60) ∧
    (∀ existing_ts : Int, is_newer false (existing_ts + 23 * 60 * 60) existing_ts = true) ∧
    (∀ existing_ts : Int, is_newer false (existing_ts + 25 * 60 * 60) existing_ts = false) ∧
    (∀ (existing_dict : List (String × PineFile)) (nf : FileMetadata) (ef : PineFile)
        (md : PineMetadata) (lu : String) (ets : Int),
      alist_get existing_dict nf.file_name = some ef →
      ef.metadata = some md →
      md.last_updated = some lu →
      pyInt? (splitDotHead lu) = some ets →
      pyInt? (splitDotHead nf.last_updated) = some (ets + 25 * 60 * 60) →
      upsertDecision existing_dict nf false = .ok false) := by
  refine ⟨fun new_ts existing_ts => ?_, fun existing_ts => ?_, fun existing_ts => ?_,
    fun existing_dict nf ef md lu ets h1 h2 h3 hets hnts => ?_⟩
  · simp [is_newer]
  · simp [is_newer]
  · simp [is_newer]
  · have hlu : ¬(lu = "") := by
      intro hh
      rw [hh, show pyInt? (splitDotHead "") = none from rfl] at hets
      exact Option.noConfusion hets
    simp only [upsertDecision, h1, h2, h3, hets, hnts]
    rw [if_neg hlu]
    simp [is_newer]

/-- Witness for C3 at a concrete remote entry 25 hours older. -/
theorem c3_imprecise_24h_boundary_witness :
    upsertDecision [("a.txt", ⟨"a.txt", some ⟨some "s", some "100", some "h"⟩⟩)]
      ⟨"s", "a.txt", "90100", "u", "h2"⟩ false = .ok false :=
  c3_imprecise_24h_boundary.2.2.2
    [("a.txt", ⟨"a.txt", some ⟨some "s", some "100", some "h"⟩⟩)]
    ⟨"s", "a.txt", "90100", "u", "h2"⟩ ⟨"a.txt", some ⟨some "s", some "100", some "h"⟩⟩
    ⟨some "s", some "100", some "h"⟩ "100" 100 rfl rfl rfl (by decide) (by decide)

theorem alist_get_numbered (us : List String) :
    ∀ (n : Nat) (u : String), (alist_get (numbered n us) u).isSome = decide (u ∈ us) := by
  induction us with
  | nil => intro n u; simp [numbered, alist_get]
  | cons v vs ih =>
    intro n u
    by_cases h : v = u
    · simp [numbered, alist_get, h]
    · simp [numbered, alist_get, h, ih, Ne.symm h]

theorem numbered_append (us : List String) :
    ∀ (n : Nat) (u : String),
      numbered n (us ++ [u]) = numbered n us ++ [(u, us.length + n)] := by
  induction us with
  | nil => intro n u; simp [numbered]
  | cons v vs ih =>
    intro n u
    have harith : vs.length + (n + 1) = vs.length + 1 + n := by omega
    calc numbered n ((v :: vs) ++ [u])
        = (v, n) :: numbered (n + 1) (vs ++ [u]) := rfl
      _ = (v, n) :: (numbered (n + 1) vs ++ [(u, vs.length + (n + 1))]) := by rw [ih]
      _ = numbered n (v :: vs) ++ [(u, (v :: vs).length + n)] := by
          rw [harith]
          simp [numbered]

theorem addRefUrls_numbered (refs : List Reference) :
    ∀ us : List String,
      addRefUrls (numbered 1 us, us.length + 1) refs =
        (numbered 1 (addUrls us refs), (addUrls us refs).length + 1) := by
  induction refs with
  | nil => intro us; rfl
  | cons r rest ih =>
    intro us
    by_cases h : r.url ∈ us
    · simp only [addRefUrls, addUrls, alist_get_numbered]
      rw [if_pos (by simp [h]), if_pos h]
      exact ih us
    · simp only [addRefUrls, addUrls, alist_get_numbered]
      rw [if_neg (by simp [h]), if_neg h]
      have h1 : numbered 1 us ++ [(r.url, us.length + 1)] = numbered 1 (us ++ [r.url]) := by
        rw [numbered_append]
      have h2 : us.length + 1 + 1 = (us ++ [r.url]).length + 1 := by
        simp
      rw [h1, h2, ih]

theorem assignNums_numbered (cits : List Citation) :
    ∀ us : List String,
      assignNums (numbered 1 us, us.length + 1) cits =
        (numbered 1 (collectUrls us cits), (collectUrls us cits).length + 1) := by
  induction cits with
  | nil => intro us; rfl
  | cons c rest ih =>
    intro us
    simp only [assignNums, collectUrls, addRefUrls_numbered, ih]

/-- Claim C1 (amended): reference numbers are assigned 1-based in order
of first appearance of each distinct reference URL when citations are
scanned in the order they appear in the raw response list (then by
reference order within a citation); this coincides with
ascending-position order only when the citation list is already sorted by
position. -/
theorem c1_numbering_follows_raw_citation_order (cits : List Citation) :
    reference_numbers cits = numbered 1 (first_appearance_urls cits) := by
  have h := assignNums_numbered cits []
  simp only [numbered, List.length_nil] at h
  simp only [reference_numbers, first_appearance_urls, h]

/-- Counterexample to C1 as stated: for the raw citation list
`[(position 40, urlA), (position 10, urlB)]` — not position-sorted — the
code numbers `urlB` second, while first-appearance order over citations
sorted by ascending position would number it first. -/
theorem c1_numbering_not_position_sorted :
    alist_get (reference_numbers [⟨40, [⟨"a", "urlA"⟩]⟩, ⟨10, [⟨"b", "urlB"⟩]⟩]) "urlB" =
      some 2 ∧
    alist_get (reference_numbers_spec [⟨40, [⟨"a", "urlA"⟩]⟩, ⟨10, [⟨"b", "urlB"⟩]⟩]) "urlB" =
      some 1 ∧
    reference_numbers [⟨40, [⟨"a", "urlA"⟩]⟩, ⟨10, [⟨"b", "urlB"⟩]⟩] ≠
      reference_numbers_spec [⟨40, [⟨"a", "urlA"⟩]⟩, ⟨10, [⟨"b", "urlB"⟩]⟩] :=
  ⟨rfl, rfl, by decide⟩

theorem alist_put_append {κ α : Type} [DecidableEq κ] (acc : List (κ × α)) (k : κ) (v : α)
    (h : ∀ p ∈ acc, p.1 ≠ k) : alist_put acc k v = acc ++ [(k, v)] := by
  induction acc with
  | nil => rfl
  | cons p rest ih =>
    have hp : p.1 ≠ k := h p (by simp)
    simp only [alist_put, if_neg hp, List.cons_append]
    rw [ih (fun q hq => h q (by simp [hq]))]

theorem pyDict_foldl_nodup (fs : List PineFile) :
    ∀ acc : List (String × PineFile),
      (∀ f ∈ fs, ∀ p ∈ acc, p.1 ≠ f.name) → (fs.map (fun f => f.name)).Nodup →
      fs.foldl (fun d f => alist_put d f.name f) acc =
        acc ++ fs.map (fun f => (f.name, f)) := by
  induction fs with
  | nil => intro acc _ _; simp
  | cons f rest ih =>
    intro acc hdisj hnodup
    simp only [List.foldl_cons]
    rw [alist_put_append acc f.name f (fun p hp => hdisj f (by simp) p hp)]
    rw [ih (acc ++ [(f.name, f)]) ?_ ?_]
    · simp
    · intro g hg p hp
      rcases List.mem_append.mp hp with hp | hp
      · exact hdisj g (by simp [hg]) p hp
      · simp only [List.mem_singleton] at hp
        subst hp
        simp only [List.map_cons, List.nodup_cons] at hnodup
        intro heq
        apply hnodup.1
        rw [show f.name = g.name from heq]
        exact List.mem_map_of_mem (fun f => f.name) hg
    · simp only [List.map_cons, List.nodup_cons] at hnodup
      exact hnodup.2

theorem pyDict_nodup (fs : List PineFile) (h : (fs.map (fun f => f.name)).Nodup) :
    pyDict fs = fs.map (fun f => (f.name, f)) := by
  have := pyDict_foldl_nodup fs [] (by simp) h
  simpa [pyDict] using this

theorem alist_get_map_self (fs : List PineFile) (h : (fs.map (fun f => f.name)).Nodup) :
    ∀ f ∈ fs, alist_get (fs.map (fun g => (g.name, g))) f.name = some f := by
  induction fs with
  | nil => intro f hf; cases hf
  | cons g rest ih =>
    intro f hf
    simp only [List.map_cons, List.nodup_cons] at h
    rcases List.mem_cons.mp hf with hf | hf
    · subst hf
      simp [alist_get]
    · have hne : g.name ≠ f.name := by
        intro heq
        exact h.1 (heq ▸ List.mem_map_of_mem (fun f => f.name) hf)
      simp only [List.map_cons, alist_get, if_neg hne]
      exact ih h.2 f hf

theorem files_to_upsert_all_skip (dict : List (String × PineFile)) (precise : Bool) :
    ∀ files : List FileMetadata,
      (∀ f ∈ files, upsertDecision dict f precise = .ok false) →
      files_to_upsert dict precise files = .ok [] := by
  intro files
  induction files with
  | nil => intro _; rfl
  | cons f rest ih =>
    intro h
    simp [files_to_upsert, h f (by simp), ih (fun g hg => h g (by simp [hg]))]

/-- Claim C4: for a local manifest identical to the remote inventory for
the same source (same file names with the same `last_updated` and
`content_hash` metadata), reconciliation produces an empty `to_upload`
set and an empty `to_delete` set, and the writer performs no mutation. -/
theorem c4_identical_manifest_no_ops (files : List FileMetadata) (source : String)
    (precise : Bool)
    (hnodup : (files.map (fun f => f.file_name)).Nodup)
    (hparse : ∀ f ∈ files, (pyInt? (splitDotHead f.last_updated)).isSome) :
    dupsert_files_pinecone (mirrorRemote source files) files source precise =
      .ok ([], []) ∧
    dupsert_run (mirrorRemote source files) files source precise = .ok [] := by
  have hnames : (mirrorRemote source files).map (fun f => f.name) =
      files.map (fun f => f.file_name) := by
    simp [mirrorRemote, List.map_map]
  have hnodup' : ((mirrorRemote source files).map (fun f => f.name)).Nodup := by
    rw [hnames]; exact hnodup
  have hdict : pyDict (mirrorRemote source files) =
      (mirrorRemote source files).map (fun f => (f.name, f)) :=
    pyDict_nodup _ hnodup'
  have hskip : ∀ f ∈ files,
      upsertDecision (pyDict (mirrorRemote source files)) f precise = .ok false := by
    intro f hf
    have hmem : (⟨f.file_name, some ⟨some source, some f.last_updated,
        some f.content_hash⟩⟩ : PineFile) ∈ mirrorRemote source files :=
      List.mem_map_of_mem _ hf
    have hlook := alist_get_map_self _ hnodup' _ hmem
    obtain ⟨t, ht⟩ := Option.isSome_iff_exists.mp (hparse f hf)
    have hne : ¬(f.last_updated = "") := by
      intro hh
      rw [hh, show pyInt? (splitDotHead "") = none from rfl] at ht
      exact Option.noConfusion ht
    have hnewer : is_newer precise t t = false := by
      simp [is_newer]
    rw [hdict]
    simp only [upsertDecision, hlook, ht, hnewer]
    rw [if_neg hne]
    simp [ht, hnewer]
  have hupsert : files_to_upsert (pyDict (mirrorRemote source files)) precise files =
      .ok [] :=
    files_to_upsert_all_skip _ _ files hskip
  have hdelete : files_to_delete
      (existing_valid_files (pyDict (mirrorRemote source files)) source)
      (files.map (fun f => f.file_name)) = [] := by
    apply List.filter_eq_nil_iff.mpr
    intro f hf
    have hmem2 := List.mem_of_mem_filter hf
    rw [hdict] at hmem2
    simp only [List.map_map] at hmem2
    rcases List.mem_map.mp hmem2 with ⟨g, hg, hgf⟩
    have hgf' : g = f := hgf
    subst hgf'
    rcases List.mem_map.mp hg with ⟨x, hx, hxg⟩
    have hname : g.name ∈ files.map (fun f => f.file_name) := by
      rw [← hxg]
      exact List.mem_map_of_mem _ hx
    have hcontains : (files.map (fun f => f.file_name)).contains g.name = true :=
      List.elem_iff.mpr hname
    intro hcontra
    rw [hcontains] at hcontra
    simp at hcontra
  constructor
  · simp only [dupsert_files_pinecone, hupsert, hdelete]
  · simp only [dupsert_run, dupsert_files_pinecone, hupsert, hdelete]
    rfl

/-- Witness for C4 at a concrete two-file manifest. -/
theorem c4_identical_manifest_no_ops_witness :
    dupsert_files_pinecone
      (mirrorRemote "wiki_docs"
        [⟨"wiki_docs", "a.txt", "100", "u1", "h1"⟩,
         ⟨"wiki_docs", "b.txt", "200", "u2", "h2"⟩])
      [⟨"wiki_docs", "a.txt", "100", "u1", "h1"⟩,
       ⟨"wiki_docs", "b.txt", "200", "u2", "h2"⟩] "wiki_docs" false = .ok ([], []) ∧
    dupsert_run
      (mirrorRemote "wiki_docs"
        [⟨"wiki_docs", "a.txt", "100", "u1", "h1"⟩,
         ⟨"wiki_docs", "b.txt", "200", "u2", "h2"⟩])
      [⟨"wiki_docs", "a.txt", "100", "u1", "h1"⟩,
       ⟨"wiki_docs", "b.txt", "200", "u2", "h2"⟩] "wiki_docs" false = .ok [] :=
  c4_identical_manifest_no_ops
    [⟨"wiki_docs", "a.txt", "100", "u1", "h1"⟩,
     ⟨"wiki_docs", "b.txt", "200", "u2", "h2"⟩] "wiki_docs" false
    (by decide) (by decide)

theorem string_data_append (a b : String) : (a ++ b).data = a.data ++ b.data := rfl

theorem pyInsert_desc (m M : String) (h : 40 ≤ m.length) :
    pyInsert (pyInsert m 40 M) 10 M =
      String.mk (m.data.take 10 ++ M.data ++ (m.data.drop 10).take 30 ++ M.data ++
        m.data.drop 40) := by
  have hlen : (m.data.take 40).length = 40 := by
    simp [List.length_take]
    exact h
  apply String.ext
  show (m.data.take 40 ++ M.data ++ m.data.drop 40).take 10 ++ M.data ++
      (m.data.take 40 ++ M.data ++ m.data.drop 40).drop 10 = _
  rw [List.append_assoc (m.data.take 40)]
  rw [List.take_append_eq_append_take, List.drop_append_eq_append_drop]
  rw [hlen]
  norm_num
  rw [List.take_take, List.drop_take]
  norm_num

/-- Claim C5: for a normalized answer with exactly two citations at
positions 10 and 40 both referencing the same URL, formatting assigns
that URL the single reference number 1, inserts two identical bracketed
markers placed at the original (unshifted) offsets 10 and 40 of the
input message, and emits exactly one References entry; with an empty
citation list the message is returned unchanged. -/
theorem c5_shared_url_two_positions (m : String) (r : Reference) (h : 40 ≤ m.length) :
    format_normalized_response ⟨m, [⟨10, [r]⟩, ⟨40, [r]⟩]⟩ =
      "References:\n" ++ refLine r.url 1 ++ "\n" ++
      String.mk (m.data.take 10) ++ ("[" ++ refMarkerToken r.url 1 ++ "]") ++
      String.mk ((m.data.drop 10).take 30) ++ ("[" ++ refMarkerToken r.url 1 ++ "]") ++
      String.mk (m.data.drop 40) ∧
    (∀ m' : String, format_normalized_response ⟨m', []⟩ = m') := by
  constructor
  · have h1 : reference_numbers [⟨10, [r]⟩, ⟨40, [r]⟩] = [(r.url, 1)] := by
      simp [reference_numbers, assignNums, addRefUrls, alist_get]
    have h2 : citations_by_position [] [⟨10, [r]⟩, ⟨40, [r]⟩] =
        [(10, [r.url]), (40, [r.url])] := by
      simp [citations_by_position, addCitPos, addPosUrl]
    have h3 : insertMarkers [(r.url, 1)] [(10, [r.url]), (40, [r.url])] [40, 10] m =
        pyInsert (pyInsert m 40 ("[" ++ refMarkerToken r.url 1 ++ "]")) 10
          ("[" ++ refMarkerToken r.url 1 ++ "]") := by
      simp [insertMarkers, markerAt, sortByNum, insertByNum, alist_get, joinComma]
    have h4 : referencesBlock [(r.url, 1)] = "References:\n" ++ refLine r.url 1 := by
      simp [referencesBlock, alist_get]
    have h5 := pyInsert_desc m ("[" ++ refMarkerToken r.url 1 ++ "]") h
    simp only [format_normalized_response, h1, h2, h3, h4, h5]
    norm_num [sortDesc, insertDesc, h3, h5]
    apply String.ext
    simp [string_data_append, List.append_assoc]
  · intro m'
    rfl

/-- Witness for C5 on a 45-character message with a URL reference. -/
theorem c5_shared_url_two_positions_witness :
    format_normalized_response
      ⟨"0123456789abcdefghijklmnopqrstuvwxyzABCDEFGH",
        [⟨10, [⟨"doc", "https://x"⟩]⟩, ⟨40, [⟨"doc", "https://x"⟩]⟩]⟩ =
      "References:\n" ++ refLine "https://x" 1 ++ "\n" ++
      String.mk (("0123456789abcdefghijklmnopqrstuvwxyzABCDEFGH" : String).data.take 10) ++
      ("[" ++ refMarkerToken "https://x" 1 ++ "]") ++
      String.mk ((("0123456789abcdefghijklmnopqrstuvwxyzABCDEFGH" : String).data.drop 10).take 30) ++
      ("[" ++ refMarkerToken "https://x" 1 ++ "]") ++
      String.mk (("0123456789abcdefghijklmnopqrstuvwxyzABCDEFGH" : String).data.drop 40) ∧
    format_normalized_response ⟨"q", []⟩ = "q" :=
  ⟨(c5_shared_url_two_positions "0123456789abcdefghijklmnopqrstuvwxyzABCDEFGH"
      ⟨"doc", "https://x"⟩ (by decide)).1,
   (c5_shared_url_two_positions "0123456789abcdefghijklmnopqrstuvwxyzABCDEFGH"
      ⟨"doc", "https://x"⟩ (by decide)).2 "q"⟩
